import Mathlib

set_option maxRecDepth 8000

/- Verification development for the quill hot-path record pipeline:
   the pattern formatter (PatternFormatter.h) and the type-erased log
   record dispatcher (LogRecord.h).

   Strings are modelled as `List Char`.  C++ exceptions are modelled with
   `Except`: a thrown exception is an `Except.error` that propagates, so any
   work already performed before the throw is kept (mutable buffers already
   written stay written) while the rest of the function body is skipped.
   Machine `size_t` loop counters only ever hold values bounded by the
   pattern length, so plain `Nat` is used. -/

/-- Errors raised while compiling a format pattern (`_set_pattern` and the
helpers it calls).  `missingPlaceholder` is the `std::runtime_error` thrown
when the pattern lacks the message token; `unknownAttribute` and
`malformedToken` are the construction failures of the callback generator
(modelled from the spec, section 7); `undefinedBehavior` marks the
out-of-range `std::vector::operator[]` access that the C++ would perform
when the counted `%` characters exceed the recognized tokens. -/
inductive CompileError where
  | missingPlaceholder
  | unknownAttribute
  | malformedToken
  | undefinedBehavior
deriving DecidableEq

/-- Errors raised while rendering: the `fmt::format_error` thrown by the
bundled fmt library on a placeholder/argument mismatch (the spec's
`FormatArgumentMismatch`). -/
inductive RenderError where
  | formatError
deriving DecidableEq

/-- The opening-brace character, kept out of string literals. -/
def lbrace : Char := Char.ofNat 123

/-- The closing-brace character, kept out of string literals. -/
def rbrace : Char := Char.ofNat 125

instance {ε α : Type} [DecidableEq ε] [DecidableEq α] : DecidableEq (Except ε α) := fun x y =>
  match x, y with
  | .error a, .error b =>
      if h : a = b then isTrue (by rw [h])
      else isFalse (fun hc => h (by injection hc))
  | .error _, .ok _ => isFalse (fun hc => by injection hc)
  | .ok _, .error _ => isFalse (fun hc => by injection hc)
  | .ok a, .ok b =>
      if h : a = b then isTrue (by rw [h])
      else isFalse (fun hc => h (by injection hc))

/-- Modelled from the spec: the interpolation engine (the bundled fmt
library, not under src/).  A template is literal text with positional
placeholders; a doubled brace is an escaped literal brace; interpolation of
a placeholder consumes the next argument and fails (throws
`fmt::format_error`, the spec's `FormatArgumentMismatch`) when arguments
run out or a stray brace appears.  Surplus arguments are ignored, as fmt
does. -/
def fmtInterp : List Char → List (List Char) → Except RenderError (List Char)
  | [], _ => .ok []
  | c :: cs, args =>
      if c = lbrace then
        match cs with
        | [] => .error .formatError
        | d :: ds =>
            if d = lbrace then Except.map (fun r => lbrace :: r) (fmtInterp ds args)
            else if d = rbrace then
              match args with
              | [] => .error .formatError
              | a :: rest => Except.map (fun r => a ++ r) (fmtInterp ds rest)
            else .error .formatError
      else if c = rbrace then
        match cs with
        | d :: ds =>
            if d = rbrace then Except.map (fun r => rbrace :: r) (fmtInterp ds args)
            else .error .formatError
        | [] => .error .formatError
      else Except.map (fun r => c :: r) (fmtInterp cs args)

/-- The closed set of attribute names documented in PatternFormatter.h
(lines 309-319), minus `%(message)` which is the split token and is never
bound to a resolver callback. -/
inductive Attr where
  | ascii_time
  | filename
  | pathname
  | function_name
  | level_name
  | lineno
  | logger_name
  | thread
deriving DecidableEq

/-- The spelling of each attribute token name. -/
def attrName : Attr → List Char
  | .ascii_time => ['a', 's', 'c', 'i', 'i', '_', 't', 'i', 'm', 'e']
  | .filename => ['f', 'i', 'l', 'e', 'n', 'a', 'm', 'e']
  | .pathname => ['p', 'a', 't', 'h', 'n', 'a', 'm', 'e']
  | .function_name => ['f', 'u', 'n', 'c', 't', 'i', 'o', 'n', '_', 'n', 'a', 'm', 'e']
  | .level_name => ['l', 'e', 'v', 'e', 'l', '_', 'n', 'a', 'm', 'e']
  | .lineno => ['l', 'i', 'n', 'e', 'n', 'o']
  | .logger_name => ['l', 'o', 'g', 'g', 'e', 'r', '_', 'n', 'a', 'm', 'e']
  | .thread => ['t', 'h', 'r', 'e', 'a', 'd']

/-- Modelled from the spec: `PatternFormatter::_select_argument_callback`
(declared in the header, body not under src/).  Fixed lookup table from a
token name to its attribute resolver; unknown names yield `none`, which the
callback generator turns into the `UnknownAttribute` failure. -/
def _select_argument_callback (pattern_attr : List Char) : Option Attr :=
  if pattern_attr = attrName .ascii_time then some .ascii_time
  else if pattern_attr = attrName .filename then some .filename
  else if pattern_attr = attrName .pathname then some .pathname
  else if pattern_attr = attrName .function_name then some .function_name
  else if pattern_attr = attrName .level_name then some .level_name
  else if pattern_attr = attrName .lineno then some .lineno
  else if pattern_attr = attrName .logger_name then some .logger_name
  else if pattern_attr = attrName .thread then some .thread
  else none

/-- Modelled from the spec: the call-site static metadata
(`detail::StaticLogRecordInfo`, included by both headers but not under
src/): source file, full path, function, line, severity level, level name
and the message template (spec section 3, Call-site Metadata). -/
structure StaticLogRecordInfo where
  filename : List Char
  pathname : List Char
  function_name : List Char
  lineno : Nat
  level : Nat
  level_name : List Char
  message_format : List Char
deriving DecidableEq

/-- Decimal rendering of a natural number. -/
def natToChars (n : Nat) : List Char := (Nat.repr n).data

/-- Modelled from the spec: the attribute resolver table (spec section
4.2): each attribute is a pure function of (timestamp, thread id, logger
name, call-site metadata).  The human-readable time formatting lives in the
missing Os/date code, so `ascii_time` stands for it as the decimal
timestamp; every claim below is insensitive to its exact text. -/
def evalAttr (a : Attr) (timestamp : Nat) (thread_id logger_name : List Char)
    (logline_info : StaticLogRecordInfo) : List Char :=
  match a with
  | .ascii_time => natToChars timestamp
  | .filename => logline_info.filename
  | .pathname => logline_info.pathname
  | .function_name => logline_info.function_name
  | .level_name => logline_info.level_name
  | .lineno => natToChars logline_info.lineno
  | .logger_name => logger_name
  | .thread => thread_id

/-- The characters of the message token after its leading percent sign:
`(message)`. -/
def msgTail : List Char := ['(', 'm', 'e', 's', 's', 'a', 'g', 'e', ')']

/-- The message token `%(message)`. -/
def msgChars : List Char := '%' :: msgTail

/-- The short-circuit character chain of `_parse_format_pattern` lines
548-550: starting right after a `%`, compare successive input characters
with the token characters.  Returns whether the whole token matched and how
many input characters were examined (the C++ `pos` advances by that much;
on a mismatch the mismatching character itself was examined).  Reading past
the end of the input hits the C string's NUL terminator, which matches no
token character, modelled by the empty-input mismatch case. -/
def matchMsgTail : List Char → List Char → Bool × Nat
  | [], _ => (true, 0)
  | _ :: _, [] => (false, 1)
  | t :: ts_, c :: cs =>
      if c = t then
        match matchMsgTail ts_ cs with
        | (b, k) => (b, k + 1)
      else (false, 1)

/-- The scanning loop of `_parse_format_pattern` (lines 536-567), expressed
over the remaining input instead of an index.  `skip` counts characters the
C++ `pos` has already advanced past inside the token-match chain; the loop
body runs only while at least two characters remain (`pos < len - 1`: the
final character is never examined as a `%`).  Before the message token is
found, every examined `%` either matches `%(message)` (setting
`part_2_found`, no counter) or bumps the part-1 counter; after it, every
examined `%` bumps the part-3 counter. -/
def scanSkip : List Char → Nat → Bool → Nat → Nat → Nat × Nat
  | [], _, _, c1, c3 => (c1, c3)
  | c :: rest, skip, part_2_found, c1, c3 =>
      match skip with
      | k + 1 => scanSkip rest k part_2_found c1 c3
      | 0 =>
          if rest = [] then (c1, c3)
          else if c = '%' then
            if part_2_found then scanSkip rest 0 part_2_found c1 (c3 + 1)
            else
              match matchMsgTail msgTail rest with
              | (b, k) =>
                  if b then scanSkip rest k true c1 c3
                  else scanSkip rest k part_2_found (c1 + 1) c3
          else scanSkip rest 0 part_2_found c1 c3

/-- `PatternFormatter::_parse_format_pattern` (lines 530-570): returns the
pair (part-1 `%` count, part-3 `%` count).  The C++ loop bound `pos <
len - 1` underflows only for the empty pattern (undefined behaviour there);
all uses have a pattern containing `%(message)`, hence length at least
10. -/
def _parse_format_pattern (pattern : List Char) : Nat × Nat :=
  scanSkip pattern 0 false 0 0

/-- Whether `pat` is an initial segment of `s` (the positional substring
test behind `std::string::find`). -/
def listStartsWith : List Char → List Char → Bool
  | _, [] => true
  | [], _ :: _ => false
  | c :: cs, p :: ps => c = p && listStartsWith cs ps

/-- `std::string::find`: index of the first occurrence of `pat` in `s`, or
`none` (`npos`). -/
def strFind : List Char → List Char → Option Nat
  | s, pat =>
      if listStartsWith s pat then some 0
      else
        match s with
        | [] => none
        | _ :: rest => Option.map (fun n => n + 1) (strFind rest pat)

/-- Modelled from the spec:
`PatternFormatter::_generate_vector_of_callbacks` (declared in the header,
body not under src/).  Scans a pattern part once; each `%(name)` token is
bound, in order, to its resolver through the lookup table
(`UnknownAttribute` failure for names outside the table, a hard error for
an unterminated `%(`); a `%` not followed by `(` is literal text.  The
second argument is the collecting state: `some acc` holds the reversed
name characters of a token being read. -/
def gvocScan : List Char → Option (List Char) → Except CompileError (List Attr)
  | [], none => .ok []
  | [], some _ => .error .malformedToken
  | c :: cs, some acc =>
      if c = ')' then
        match _select_argument_callback acc.reverse with
        | none => .error .unknownAttribute
        | some a => Except.map (fun t => a :: t) (gvocScan cs none)
      else gvocScan cs (some (c :: acc))
  | '%' :: '(' :: rest, none => gvocScan rest (some [])
  | _ :: cs, none => gvocScan cs none

/-- `_generate_vector_of_callbacks`: the ordered resolver selections of one
pattern part. -/
def _generate_vector_of_callbacks (pattern : List Char) : Except CompileError (List Attr) :=
  gvocScan pattern none

/-- Modelled from the spec:
`PatternFormatter::_generate_fmt_format_string` (declared in the header,
body not under src/).  Rewrites a pattern part into an fmt template: each
recognized `%(name)` token becomes the positional placeholder, literal
braces are escaped by doubling, all other literal text is preserved
verbatim (spec section 4.1).  Unrecognized or unterminated tokens are kept
as literal text; those cases are unreachable from `_set_pattern` because
the callback generator fails on them first. -/
def gffsScan : List Char → Option (List Char) → List Char
  | [], none => []
  | [], some acc => '%' :: '(' :: acc.reverse
  | c :: cs, some acc =>
      if c = ')' then
        if (_select_argument_callback acc.reverse).isSome then
          lbrace :: rbrace :: gffsScan cs none
        else '%' :: '(' :: (acc.reverse ++ ')' :: gffsScan cs none)
      else gffsScan cs (some (c :: acc))
  | '%' :: '(' :: rest, none => gffsScan rest (some [])
  | c :: cs, none =>
      if c = lbrace then lbrace :: lbrace :: gffsScan cs none
      else if c = rbrace then rbrace :: rbrace :: gffsScan cs none
      else c :: gffsScan cs none

/-- `_generate_fmt_format_string`: the fmt template of one pattern part. -/
def _generate_fmt_format_string (pattern : List Char) : List Char :=
  gffsScan pattern none

/-- `PatternFormatter::FormatterHelper` (lines 94-130): the precompiled
segment, an ordered tuple of resolver callbacks plus the fmt template they
are interpolated through. -/
structure FormatterHelper where
  callbacks : List Attr
  fmt_pattern : List Char
deriving DecidableEq

/-- `FormatterHelper::format` (lines 111-125): evaluate every stored
callback on the record inputs and interpolate the results through the
stored fmt template; the produced text is appended to the output buffer by
the caller. -/
def FormatterHelper.format (h : FormatterHelper) (timestamp : Nat)
    (thread_id logger_name : List Char) (logline_info : StaticLogRecordInfo) :
    Except RenderError (List Char) :=
  fmtInterp h.fmt_pattern
    (h.callbacks.map (fun a => evalAttr a timestamp thread_id logger_name logline_info))

/-- `PatternFormatter::_make_formatter_helper` (lines 573-593): generate
the resolver callbacks of the part; when the collection is empty return no
helper (`nullptr`) -- the part is skipped at render time even if it holds
literal text.  Otherwise build the tuple of exactly `N` callbacks
(`_generate_tuple<N>` reads `v[0] .. v[N-1]`; an index beyond the vector is
the out-of-range undefined behaviour) together with the generated fmt
template. -/
def _make_formatter_helper (N : Nat) (format_pattern_part : List Char) :
    Except CompileError (Option FormatterHelper) :=
  match _generate_vector_of_callbacks format_pattern_part with
  | .error e => .error e
  | .ok args_callback_collection =>
      if args_callback_collection = [] then .ok none
      else if N ≤ args_callback_collection.length then
        .ok (some
          { callbacks := List.take N args_callback_collection
            fmt_pattern := _generate_fmt_format_string format_pattern_part })
      else .error .undefinedBehavior

/-- `PatternFormatter` state after construction: the two optional
precompiled segment helpers (part 1 before `%(message)`, part 3 after). -/
structure PatternFormatter where
  part1 : Option FormatterHelper
  part3 : Option FormatterHelper
deriving DecidableEq

/-- `PatternFormatter::_set_pattern` (lines 502-527): find the message
token (first occurrence, `std::string::find`); absent means the
`%(message) is required` error.  Split the pattern into the substring
before the occurrence and the substring after it (`message_found + 10`
skips the ten token characters), count the `%` specifiers of each side with
`_parse_format_pattern`, and build the two helpers. -/
def _set_pattern (pattern : List Char) : Except CompileError PatternFormatter :=
  match strFind pattern msgChars with
  | none => .error .missingPlaceholder
  | some message_found =>
      match _make_formatter_helper (_parse_format_pattern pattern).1
          (List.take message_found pattern) with
      | .error e => .error e
      | .ok h1 =>
          match _make_formatter_helper (_parse_format_pattern pattern).2
              (List.drop (message_found + 10) pattern) with
          | .error e => .error e
          | .ok h3 => .ok { part1 := h1, part3 := h3 }

/-- The guarded segment render of `PatternFormatter::format`: when the
segment helper exists (`if (_pattern_formatter_helper_part_N)`) its text is
produced, otherwise the segment contributes nothing. -/
def renderOptHelper (o : Option FormatterHelper) (timestamp : Nat)
    (thread_id logger_name : List Char) (logline_info : StaticLogRecordInfo) :
    Except RenderError (List Char) :=
  match o with
  | some h => h.format timestamp thread_id logger_name logline_info
  | none => .ok []

/-- `PatternFormatter::format` (lines 402-429).  The member render buffer
holds `prev_buffer` from the previous call; the body first clears it, then
appends the part-1 segment when its helper exists, then the caller's
arguments interpolated through the call-site message template, then the
part-3 segment when its helper exists, then exactly one line feed.  A
throw from any step propagates (`Except.error`). -/
def PatternFormatter.format (f : PatternFormatter) (_prev_buffer : List Char)
    (timestamp : Nat) (thread_id logger_name : List Char)
    (logline_info : StaticLogRecordInfo) (args : List (List Char)) :
    Except RenderError (List Char) :=
  match renderOptHelper f.part1 timestamp thread_id logger_name logline_info with
  | .error e => .error e
  | .ok part1_text =>
      match fmtInterp logline_info.message_format args with
      | .error e => .error e
      | .ok message_text =>
          match renderOptHelper f.part3 timestamp thread_id logger_name logline_info with
          | .error e => .error e
          | .ok part3_text =>
              .ok (part1_text ++ message_text ++ part3_text ++ ['\n'])

/-- An output sink: per spec section 6 a handler owns its own pattern
formatter and exposes `write`. -/
structure Handler where
  formatter : PatternFormatter
deriving DecidableEq

/-- Modelled from the spec: the logger registry entry
(`detail::LoggerDetails`, not under src/): logger name, ordered attached
handlers, backtrace-flush severity threshold (spec section 3). -/
structure LoggerDetails where
  name : List Char
  handlers : List Handler
  backtrace_flush_level : Nat
deriving DecidableEq

/-- `detail::LogRecord` (LogRecord.h): non-owning logger details reference,
the call-site static metadata (the record's `LogRecordMetadataT`), and the
tuple of promoted argument values captured at the call site.  Arguments are
modelled by their rendered text, which is all the formatter consumes. -/
structure LogRecord where
  logger_details : LoggerDetails
  metadata : StaticLogRecordInfo
  fmt_args : List (List Char)
deriving DecidableEq

/-- `LogRecord::clone` (lines 54-57): `std::make_unique<LogRecord>(*this)`,
a member-wise copy -- the argument tuple is duplicated by value and the
logger details pointer is shared. -/
def LogRecord.clone (r : LogRecord) : LogRecord :=
  { logger_details := r.logger_details
    metadata := r.metadata
    fmt_args := r.fmt_args }

/-- One observable handler delivery: `handler->write(buffer, timestamp)`
called on the handler at `handler_index` of its logger, with the rendered
buffer, while rendering ran with `thread_id`. -/
structure Event where
  handler_index : Nat
  thread_id : List Char
  buffer : List Char
  timestamp : Nat
deriving DecidableEq

/-- The render step of the dispatch loop body for one handler: the
handler's own formatter formats the record (lines 82-89); the previous
buffer content is irrelevant because `format` clears it first. -/
def renderFor (r : LogRecord) (timestamp : Nat) (thread_id : List Char)
    (h : Handler) : Except RenderError (List Char) :=
  PatternFormatter.format h.formatter [] timestamp thread_id r.logger_details.name
    r.metadata r.fmt_args

/-- The handler loop of `backend_process` (lines 77-97), carrying the index
of the next handler: render with the handler's formatter, then `write` the
buffer (recorded as an `Event`).  A render throw propagates out of the
loop: earlier writes stay, the failing and all later handlers get no
write. -/
def deliverGo (r : LogRecord) (thread_id : List Char) (timestamp : Nat) :
    List Handler → Nat → List Event × Option RenderError
  | [], _ => ([], none)
  | h :: hs, idx =>
      match renderFor r timestamp thread_id h with
      | .error e => ([], some e)
      | .ok buf =>
          ({ handler_index := idx, thread_id := thread_id, buffer := buf,
             timestamp := timestamp } :: (deliverGo r thread_id timestamp hs (idx + 1)).1,
           (deliverGo r thread_id timestamp hs (idx + 1)).2)

/-- Delivery of one record to all handlers attached to its logger, in
declared attachment order. -/
def deliverToHandlers (r : LogRecord) (thread_id : List Char) (timestamp : Nat) :
    List Event × Option RenderError :=
  deliverGo r thread_id timestamp r.logger_details.handlers 0

/-- One buffered backtrace record: the thread id captured when it was
stored, the timestamp its injected timestamp callback resolves to, and the
record itself. -/
structure BacktraceEntry where
  thread_id : List Char
  timestamp : Nat
  record : LogRecord
deriving DecidableEq

/-- Modelled from the spec: the backtrace ring storage collaborator keyed
by logger name (spec section 6); `process` visits the records buffered
under one name in stored order. -/
structure BacktraceRecordStorage where
  stored : List (List Char × List BacktraceEntry)
deriving DecidableEq

/-- The records buffered under a logger name (empty when none). -/
def lookupStorage : List (List Char × List BacktraceEntry) → List Char → List BacktraceEntry
  | [], _ => []
  | (k, v) :: rest, name => if k = name then v else lookupStorage rest name

/-- Modelled from the spec:
`RecordBase::backend_process_backtrace_record` (RecordBase.h, not under
src/): replay one buffered record through the same per-record
render-and-write path using its stored thread id and the logger's own
handlers (spec section 4.5). -/
def LogRecord.backend_process_backtrace_record (r : LogRecord)
    (stored_thread_id : List Char) (timestamp : Nat) : List Event × Option RenderError :=
  deliverToHandlers r stored_thread_id timestamp

/-- Modelled from the spec: `BacktraceRecordStorage::process` visiting
every buffered entry in stored order with the visitor of lines 110-114;
a throw from a replayed record propagates and stops the replay. -/
def processBacktrace : List BacktraceEntry → List Event × Option RenderError
  | [] => ([], none)
  | e :: es =>
      let d := LogRecord.backend_process_backtrace_record e.record e.thread_id e.timestamp
      match d.2 with
      | some err => (d.1, some err)
      | none => (d.1 ++ (processBacktrace es).1, (processBacktrace es).2)

/-- `LogRecord::backend_process` (lines 67-116): deliver the record to
every attached handler in order, then compare the call-site severity with
the logger's backtrace-flush threshold (line 103,
`level() >= backtrace_flush_level()`); when met, replay every record
buffered under this logger's name.  The resolved timestamp of the
triggering record is passed in place of the injected timestamp callback's
result. -/
def LogRecord.backend_process (r : LogRecord) (storage : BacktraceRecordStorage)
    (thread_id : List Char) (timestamp : Nat) : List Event × Option RenderError :=
  let d := deliverToHandlers r thread_id timestamp
  match d.2 with
  | some e => (d.1, some e)
  | none =>
      if r.logger_details.backtrace_flush_level ≤ r.metadata.level then
        let rp := processBacktrace (lookupStorage storage.stored r.logger_details.name)
        (d.1 ++ rp.1, rp.2)
      else (d.1, none)

/-- The full text of a recognized attribute token, `%(name)`. -/
def tokenChars (a : Attr) : List Char := '%' :: '(' :: (attrName a ++ [')'])

/-- A structured pattern piece used to quantify over well-formed format
strings: a run of literal text or one recognized attribute token. -/
inductive PatItem where
  | lit : List Char → PatItem
  | tok : Attr → PatItem
deriving DecidableEq

/-- The character rendering of one pattern piece. -/
def PatItem.render : PatItem → List Char
  | .lit s => s
  | .tok a => tokenChars a

/-- The character rendering of a piece list. -/
def renderItems : List PatItem → List Char
  | [] => []
  | i :: rest => i.render ++ renderItems rest

/-- Well-formedness of a piece: literal runs hold no percent sign, so that
every `%` of the rendered pattern belongs to a recognized token. -/
def itemOk : PatItem → Prop
  | .lit s => '%' ∉ s
  | .tok _ => True

instance : DecidablePred itemOk := fun i =>
  match i with
  | .lit s => (inferInstance : Decidable ('%' ∉ s))
  | .tok _ => isTrue trivial

/-- The attribute tokens of a piece list, in order. -/
def toks : List PatItem → List Attr
  | [] => []
  | .lit _ :: rest => toks rest
  | .tok a :: rest => a :: toks rest

/-- Literal text with the interpolation engine's braces escaped by
doubling. -/
def escapeLit : List Char → List Char
  | [] => []
  | c :: cs =>
      if c = lbrace then lbrace :: lbrace :: escapeLit cs
      else if c = rbrace then rbrace :: rbrace :: escapeLit cs
      else c :: escapeLit cs

/-- The fmt template a piece list compiles to: literal runs escaped, each
token replaced by the positional placeholder. -/
def fmtRender : List PatItem → List Char
  | [] => []
  | .lit s :: rest => escapeLit s ++ fmtRender rest
  | .tok _ :: rest => lbrace :: rbrace :: fmtRender rest

/-- The reference rendering of a piece list: literal runs verbatim, each
token replaced by its resolved attribute value. -/
def resolveItems (f : Attr → List Char) : List PatItem → List Char
  | [] => []
  | .lit s :: rest => s ++ resolveItems f rest
  | .tok a :: rest => f a ++ resolveItems f rest

/- Concrete inputs shared by witnesses and counterexamples. -/

/-- A concrete thread id. -/
def tid_w : List Char := ['T']

/-- A concrete logger name. -/
def lname_w : List Char := ['L']

/-- Concrete call-site metadata whose message template is one literal
character followed by one placeholder. -/
def info_w : StaticLogRecordInfo :=
  { filename := ['f'], pathname := ['p'], function_name := ['g'], lineno := 7,
    level := 3, level_name := ['I'], message_format := ['m', lbrace, rbrace] }

/-- Metadata with a placeholder-free message template. -/
def infoPlain : StaticLogRecordInfo :=
  { info_w with message_format := ['o', 'k'] }

/-- Metadata whose message template holds two placeholders, so that a
record carrying a single argument renders with a format-argument
mismatch. -/
def infoMismatch : StaticLogRecordInfo :=
  { info_w with message_format := [lbrace, rbrace, lbrace, rbrace] }

/-- A handler whose formatter has no prefix and no suffix segment (the
compilation of the bare message pattern). -/
def handlerPlain : Handler := { formatter := { part1 := none, part3 := none } }

/-- A handler whose formatter state is inconsistent: a prefix template with
one placeholder but no callbacks, so that its render always fails. -/
def handlerBroken : Handler :=
  { formatter :=
      { part1 := some { callbacks := [], fmt_pattern := [lbrace, rbrace] }
        part3 := none } }

/-- A formatter with a one-token prefix segment and a one-token suffix
segment. -/
def fmt_c1 : PatternFormatter :=
  { part1 := some { callbacks := [.thread], fmt_pattern := [lbrace, rbrace, ' '] }
    part3 := some { callbacks := [.level_name], fmt_pattern := [' ', lbrace, rbrace] } }

/-- Logger with one plain handler and flush threshold 2. -/
def logger_c3 : LoggerDetails :=
  { name := lname_w, handlers := [handlerPlain], backtrace_flush_level := 2 }

/-- The record triggering the C3 witness replay (severity 3 meets the
threshold 2). -/
def rec_c3 : LogRecord :=
  { logger_details := logger_c3, metadata := infoPlain, fmt_args := [] }

/-- A buffered backtrace entry carrying its own thread id. -/
def entry_c3 : BacktraceEntry :=
  { thread_id := ['S'], timestamp := 4
    record := { logger_details := logger_c3, metadata := infoPlain, fmt_args := [] } }

/-- Storage holding one buffered record under the witness logger's name. -/
def storage_c3 : BacktraceRecordStorage := { stored := [(lname_w, [entry_c3])] }

/-- The C4 counterexample pattern `100% %(thread) %(message)`: one stray
percent sign plus one recognized token before the message token. -/
def pat_c4 : List Char :=
  ['1', '0', '0', '%', ' '] ++ tokenChars .thread ++ (' ' :: msgChars)

/-- The C5 counterexample pattern `hello %(message)`: literal prefix text
and zero prefix tokens. -/
def pat_c5 : List Char := ['h', 'e', 'l', 'l', 'o', ' '] ++ msgChars

/-- Record with two attached handlers and a mismatched message template:
rendering fails for the first handler. -/
def rec_c6 : LogRecord :=
  { logger_details :=
      { name := lname_w, handlers := [handlerPlain, handlerPlain], backtrace_flush_level := 100 }
    metadata := infoMismatch, fmt_args := [['x']] }

/-- Record with three handlers of which the second one's render fails. -/
def rec_c6w : LogRecord :=
  { logger_details :=
      { name := lname_w, handlers := [handlerPlain, handlerBroken, handlerPlain]
        backtrace_flush_level := 100 }
    metadata := infoPlain, fmt_args := [] }

/-- Record with three plain handlers, all renders succeeding. -/
def rec_c7 : LogRecord :=
  { logger_details :=
      { name := lname_w, handlers := [handlerPlain, handlerPlain, handlerPlain]
        backtrace_flush_level := 100 }
    metadata := infoPlain, fmt_args := [] }

/-- The C10 witness pattern `%(thread) %(message) %(message)`: the message
token occurs twice. -/
def pat_c10 : List Char := tokenChars .thread ++ (' ' :: msgChars) ++ (' ' :: msgChars)

/-- Structured prefix pieces for the amended-C4 witness. -/
def pre_c4 : List PatItem := [.lit ['a', ' '], .tok .thread, .lit [' ']]

/-- Structured suffix pieces for the amended-C4 witness. -/
def post_c4 : List PatItem := [.tok .lineno]

/-- Structured segment for the amended-C5 witness: literal text containing
a brace, one token, one more literal character. -/
def items_c5 : List PatItem := [.lit ['a', lbrace, 'b'], .tok .thread, .lit ['c']]

/- Shared helper lemmas. -/

theorem listStartsWith_decomp (s pat : List Char) (h : listStartsWith s pat = true) :
    s = pat ++ List.drop pat.length s := by
  induction pat generalizing s with
  | nil => simp
  | cons p ps ih =>
      cases s with
      | nil => simp [listStartsWith] at h
      | cons c cs =>
          simp only [listStartsWith, Bool.and_eq_true, decide_eq_true_eq] at h
          obtain ⟨h1, h2⟩ := h
          subst h1
          simpa using ih cs h2

theorem strFind_none_of (s pat : List Char)
    (h : ∀ i, i ≤ s.length → listStartsWith (List.drop i s) pat = false) :
    strFind s pat = none := by
  induction s with
  | nil =>
      have h0 := h 0 (by simp)
      simp only [List.drop_zero] at h0
      simp [strFind, h0]
  | cons c cs ih =>
      have h0 := h 0 (by simp)
      simp only [List.drop_zero] at h0
      have hr : strFind cs pat = none := by
        refine ih (fun i hi => ?_)
        have := h (i + 1) (by simpa using Nat.succ_le_succ hi)
        simpa using this
      simp [strFind, h0, hr]

theorem strFind_some (s pat : List Char) :
    ∀ idx, strFind s pat = some idx →
      listStartsWith (List.drop idx s) pat = true ∧
        ∀ j, j < idx → listStartsWith (List.drop j s) pat = false := by
  induction s with
  | nil =>
      intro idx h
      rw [strFind] at h
      by_cases hsw : listStartsWith [] pat
      · rw [if_pos hsw] at h
        injection h with h
        subst h
        exact ⟨by simpa using hsw, fun j hj => absurd hj (Nat.not_lt_zero j)⟩
      · rw [if_neg hsw] at h
        exact Option.noConfusion h
  | cons c cs ih =>
      intro idx h
      rw [strFind] at h
      by_cases hsw : listStartsWith (c :: cs) pat
      · rw [if_pos hsw] at h
        injection h with h
        subst h
        exact ⟨by simpa using hsw, fun j hj => absurd hj (Nat.not_lt_zero j)⟩
      · rw [if_neg hsw] at h
        cases hf : strFind cs pat with
        | none => rw [hf] at h; exact Option.noConfusion h
        | some n =>
            rw [hf] at h
            simp only [Option.map_some'] at h
            injection h with h
            subst h
            obtain ⟨h1, h2⟩ := ih n hf
            refine ⟨by simpa using h1, fun j hj => ?_⟩
            cases j with
            | zero => simpa using hsw
            | succ j' => simpa using h2 j' (Nat.lt_of_succ_lt_succ hj)

theorem renderOptHelper_cases (o : Option FormatterHelper) (timestamp : Nat)
    (thread_id logger_name : List Char) (logline_info : StaticLogRecordInfo) (x : List Char)
    (h : renderOptHelper o timestamp thread_id logger_name logline_info = Except.ok x) :
    (o = none → x = []) ∧
      ∀ hh, o = some hh →
        FormatterHelper.format hh timestamp thread_id logger_name logline_info = Except.ok x := by
  cases o with
  | none =>
      refine ⟨fun _ => ?_, fun hh hhh => Option.noConfusion hhh⟩
      simp only [renderOptHelper] at h
      injection h with h
      exact h.symm
  | some hh =>
      refine ⟨fun hc => Option.noConfusion hc, fun hh2 hhh => ?_⟩
      injection hhh with e
      subst e
      simpa only [renderOptHelper] using h

theorem deliverGo_thread_id (r : LogRecord) (tid : List Char) (ts : Nat) :
    ∀ (hs : List Handler) (idx : Nat), ∀ ev ∈ (deliverGo r tid ts hs idx).1, ev.thread_id = tid := by
  intro hs
  induction hs with
  | nil => intro idx ev hev; simp [deliverGo] at hev
  | cons h hs ih =>
      intro idx ev hev
      simp only [deliverGo] at hev
      cases hr : renderFor r ts tid h with
      | error e => rw [hr] at hev; simp at hev
      | ok buf =>
          rw [hr] at hev
          simp only [List.mem_cons] at hev
          rcases hev with rfl | hev
          · rfl
          · exact ih (idx + 1) ev hev

theorem processBacktrace_thread_id :
    ∀ entries : List BacktraceEntry, ∀ ev ∈ (processBacktrace entries).1,
      ∃ e ∈ entries, ev.thread_id = e.thread_id := by
  intro entries
  induction entries with
  | nil => intro ev hev; simp [processBacktrace] at hev
  | cons e es ih =>
      intro ev hev
      simp only [processBacktrace] at hev
      cases hd : (LogRecord.backend_process_backtrace_record e.record e.thread_id e.timestamp).2 with
      | some err =>
          rw [hd] at hev
          have := deliverGo_thread_id e.record e.thread_id e.timestamp
            e.record.logger_details.handlers 0 ev hev
          exact ⟨e, List.mem_cons_self e es, this⟩
      | none =>
          rw [hd] at hev
          rcases List.mem_append.mp hev with hl | hrr
          · have := deliverGo_thread_id e.record e.thread_id e.timestamp
              e.record.logger_details.handlers 0 ev hl
            exact ⟨e, List.mem_cons_self e es, this⟩
          · obtain ⟨e2, he2, ht⟩ := ih ev hrr
            exact ⟨e2, List.mem_cons_of_mem e he2, ht⟩

/- Claim theorems. -/

/-- Claim C1: whenever `PatternFormatter::format` succeeds, the resulting
buffer equals prefix-text ++ interpolated-message ++ suffix-text ++ one
line feed, where the prefix (suffix) text is the prefix (suffix) segment's
rendering when present and empty otherwise, and the message is the
caller's arguments interpolated through the call-site template; the result
is independent of the buffer's previous content because the buffer is
cleared first. -/
theorem c1_format_order (f : PatternFormatter) (prev_buffer : List Char) (timestamp : Nat)
    (thread_id logger_name : List Char) (logline_info : StaticLogRecordInfo)
    (args : List (List Char)) (out : List Char)
    (h : PatternFormatter.format f prev_buffer timestamp thread_id logger_name logline_info args
        = Except.ok out) :
    ∃ p m s,
      (f.part1 = none → p = []) ∧
      (∀ hh, f.part1 = some hh →
        FormatterHelper.format hh timestamp thread_id logger_name logline_info = Except.ok p) ∧
      fmtInterp logline_info.message_format args = Except.ok m ∧
      (f.part3 = none → s = []) ∧
      (∀ hh, f.part3 = some hh →
        FormatterHelper.format hh timestamp thread_id logger_name logline_info = Except.ok s) ∧
      out = p ++ m ++ s ++ ['\n'] := by
  unfold PatternFormatter.format at h
  cases hp1 : renderOptHelper f.part1 timestamp thread_id logger_name logline_info with
  | error e => rw [hp1] at h; exact Except.noConfusion h
  | ok p =>
      rw [hp1] at h
      cases hm : fmtInterp logline_info.message_format args with
      | error e => rw [hm] at h; exact Except.noConfusion h
      | ok m =>
          rw [hm] at h
          cases hp3 : renderOptHelper f.part3 timestamp thread_id logger_name logline_info with
          | error e => rw [hp3] at h; exact Except.noConfusion h
          | ok s =>
              rw [hp3] at h
              have h2 : Except.ok (ε := RenderError) (p ++ m ++ s ++ ['\n']) = Except.ok out := h
              injection h2 with h2
              obtain ⟨hp1n, hp1s⟩ := renderOptHelper_cases _ _ _ _ _ _ hp1
              obtain ⟨hp3n, hp3s⟩ := renderOptHelper_cases _ _ _ _ _ _ hp3
              exact ⟨p, m, s, hp1n, hp1s, rfl, hp3n, hp3s, h2.symm⟩

/-- Witness for C1 at a formatter with a one-token prefix and a one-token
suffix segment. -/
theorem c1_format_order_witness :
    PatternFormatter.format fmt_c1 ['z'] 0 tid_w lname_w info_w [['5']]
        = Except.ok ['T', ' ', 'm', '5', ' ', 'I', '\n'] ∧
    (∃ p m s,
      (fmt_c1.part1 = none → p = []) ∧
      (∀ hh, fmt_c1.part1 = some hh →
        FormatterHelper.format hh 0 tid_w lname_w info_w = Except.ok p) ∧
      fmtInterp info_w.message_format [['5']] = Except.ok m ∧
      (fmt_c1.part3 = none → s = []) ∧
      (∀ hh, fmt_c1.part3 = some hh →
        FormatterHelper.format hh 0 tid_w lname_w info_w = Except.ok s) ∧
      ['T', ' ', 'm', '5', ' ', 'I', '\n'] = p ++ m ++ s ++ ['\n']) :=
  ⟨rfl, c1_format_order fmt_c1 ['z'] 0 tid_w lname_w info_w [['5']]
    ['T', ' ', 'm', '5', ' ', 'I', '\n'] rfl⟩

/-- Claim C2: for every pattern string not containing the `%(message)`
token, `_set_pattern` fails synchronously at formatter construction with
the missing-placeholder error; no formatter value is produced, so the
failure cannot be deferred to a render. -/
theorem c2_missing_placeholder (pattern : List Char)
    (h : ∀ i, i ≤ pattern.length → listStartsWith (List.drop i pattern) msgChars = false) :
    _set_pattern pattern = Except.error CompileError.missingPlaceholder := by
  have hf : strFind pattern msgChars = none := strFind_none_of pattern msgChars h
  unfold _set_pattern
  rw [hf]

/-- Witness for C2 at the two-character pattern `ab`. -/
theorem c2_missing_placeholder_witness :
    (∀ i, i ≤ (['a', 'b'] : List Char).length →
      listStartsWith (List.drop i ['a', 'b']) msgChars = false) ∧
    _set_pattern ['a', 'b'] = Except.error CompileError.missingPlaceholder :=
  ⟨by decide, c2_missing_placeholder ['a', 'b'] (by decide)⟩

/-- Claim C8: the record produced by `clone` carries the same non-owning
logger-details reference and equal argument values, and dispatching the
clone through `backend_process` produces exactly the output the original
would have produced. -/
theorem c8_clone_equiv (r : LogRecord) (storage : BacktraceRecordStorage)
    (thread_id : List Char) (timestamp : Nat) :
    (LogRecord.clone r).logger_details = r.logger_details ∧
    (LogRecord.clone r).fmt_args = r.fmt_args ∧
    LogRecord.backend_process (LogRecord.clone r) storage thread_id timestamp
      = LogRecord.backend_process r storage thread_id timestamp :=
  ⟨rfl, rfl, rfl⟩

/-- Claim C9: pattern compilation is deterministic -- two successful
compilations of the same pattern yield equal formatters -- and rendering
is deterministic and independent of the previous render-buffer content:
two renders with the same fixed inputs produce byte-identical buffers. -/
theorem c9_deterministic (pattern : List Char) (f1 f2 : PatternFormatter)
    (h1 : _set_pattern pattern = Except.ok f1) (h2 : _set_pattern pattern = Except.ok f2)
    (prev1 prev2 : List Char) (timestamp : Nat) (thread_id logger_name : List Char)
    (logline_info : StaticLogRecordInfo) (args : List (List Char)) :
    f1 = f2 ∧
    PatternFormatter.format f1 prev1 timestamp thread_id logger_name logline_info args
      = PatternFormatter.format f2 prev2 timestamp thread_id logger_name logline_info args := by
  rw [h1] at h2
  injection h2 with h2
  subst h2
  exact ⟨rfl, rfl⟩

/-- Witness for C9 at the bare message pattern and two different previous
buffer contents. -/
theorem c9_deterministic_witness :
    _set_pattern msgChars = Except.ok { part1 := none, part3 := none } ∧
    (({ part1 := none, part3 := none } : PatternFormatter) = { part1 := none, part3 := none } ∧
      PatternFormatter.format { part1 := none, part3 := none } ['a'] 0 tid_w lname_w infoPlain []
        = PatternFormatter.format { part1 := none, part3 := none } ['b'] 0 tid_w lname_w
            infoPlain []) :=
  ⟨rfl, c9_deterministic msgChars { part1 := none, part3 := none }
    { part1 := none, part3 := none } rfl rfl ['a'] ['b'] 0 tid_w lname_w infoPlain []⟩

/-- Claim C10: when the pattern contains `%(message)`, `_set_pattern`
splits at the first occurrence: `strFind` returns an index where the token
starts and before which it never starts, the pattern decomposes as
prefix ++ token ++ suffix around that index, and the construction proceeds
on exactly those prefix and suffix substrings -- a later `%(message)`
occurrence is ordinary suffix text, not a second split point, and the
split itself raises no error for it. -/
theorem c10_first_occurrence_split (pattern : List Char) (idx : Nat)
    (h : strFind pattern msgChars = some idx) :
    listStartsWith (List.drop idx pattern) msgChars = true ∧
    (∀ j, j < idx → listStartsWith (List.drop j pattern) msgChars = false) ∧
    pattern = List.take idx pattern ++ msgChars ++ List.drop (idx + 10) pattern ∧
    _set_pattern pattern =
      (match _make_formatter_helper (_parse_format_pattern pattern).1
          (List.take idx pattern) with
       | .error e => .error e
       | .ok h1 =>
           match _make_formatter_helper (_parse_format_pattern pattern).2
               (List.drop (idx + 10) pattern) with
           | .error e => .error e
           | .ok h3 => .ok { part1 := h1, part3 := h3 }) := by
  obtain ⟨h1, h2⟩ := strFind_some pattern msgChars idx h
  have hsplit : List.drop idx pattern = msgChars ++ List.drop (idx + 10) pattern := by
    have hd := listStartsWith_decomp _ _ h1
    rw [List.drop_drop] at hd
    exact hd
  refine ⟨h1, h2, ?_, ?_⟩
  · conv_lhs => rw [← List.take_append_drop idx pattern]
    rw [hsplit, ← List.append_assoc]
  · unfold _set_pattern
    rw [h]

/-- Witness for C10 at a pattern holding the message token twice: the
split happens at the first occurrence (index 10) and the second occurrence
stays inside the suffix substring. -/
theorem c10_first_occurrence_split_witness :
    strFind pat_c10 msgChars = some 10 ∧
    (listStartsWith (List.drop 10 pat_c10) msgChars = true ∧
     (∀ j, j < 10 → listStartsWith (List.drop j pat_c10) msgChars = false) ∧
     pat_c10 = List.take 10 pat_c10 ++ msgChars ++ List.drop (10 + 10) pat_c10 ∧
     _set_pattern pat_c10 =
       (match _make_formatter_helper (_parse_format_pattern pat_c10).1
           (List.take 10 pat_c10) with
        | .error e => .error e
        | .ok h1 =>
            match _make_formatter_helper (_parse_format_pattern pat_c10).2
                (List.drop (10 + 10) pat_c10) with
            | .error e => .error e
            | .ok h3 => .ok { part1 := h1, part3 := h3 })) :=
  ⟨rfl, c10_first_occurrence_split pat_c10 10 rfl⟩

/-- Claim C3: when delivery of a record to all its logger's handlers
succeeds, `backend_process` triggers the backtrace replay if and only if
the record's severity level is at least the logger's backtrace-flush
level; the replayed events are ordered strictly after the delivery events
of the triggering record, and every replayed event carries the thread id
originally stored with its backtrace entry (not the dispatching thread's
id). -/
theorem c3_backtrace_replay (r : LogRecord) (storage : BacktraceRecordStorage)
    (thread_id : List Char) (timestamp : Nat)
    (hok : (deliverToHandlers r thread_id timestamp).2 = none) :
    LogRecord.backend_process r storage thread_id timestamp
      = ((deliverToHandlers r thread_id timestamp).1 ++
          (if r.logger_details.backtrace_flush_level ≤ r.metadata.level
           then (processBacktrace (lookupStorage storage.stored r.logger_details.name)).1
           else []),
         if r.logger_details.backtrace_flush_level ≤ r.metadata.level
         then (processBacktrace (lookupStorage storage.stored r.logger_details.name)).2
         else none) ∧
    (∀ ev ∈ (processBacktrace (lookupStorage storage.stored r.logger_details.name)).1,
       ∃ e ∈ lookupStorage storage.stored r.logger_details.name,
         ev.thread_id = e.thread_id) := by
  constructor
  · simp only [LogRecord.backend_process, hok]
    by_cases hc : r.logger_details.backtrace_flush_level ≤ r.metadata.level
    · simp [hc]
    · simp [hc]
  · exact processBacktrace_thread_id _

/-- Witness for C3: severity 3 meets flush level 2, so the single buffered
record replays, after the trigger's own delivery, with its stored thread
id. -/
theorem c3_backtrace_replay_witness :
    (deliverToHandlers rec_c3 tid_w 9).2 = none ∧
    (LogRecord.backend_process rec_c3 storage_c3 tid_w 9
        = ((deliverToHandlers rec_c3 tid_w 9).1 ++
            (if rec_c3.logger_details.backtrace_flush_level ≤ rec_c3.metadata.level
             then (processBacktrace
               (lookupStorage storage_c3.stored rec_c3.logger_details.name)).1
             else []),
           if rec_c3.logger_details.backtrace_flush_level ≤ rec_c3.metadata.level
           then (processBacktrace
             (lookupStorage storage_c3.stored rec_c3.logger_details.name)).2
           else none) ∧
     (∀ ev ∈ (processBacktrace (lookupStorage storage_c3.stored rec_c3.logger_details.name)).1,
        ∃ e ∈ lookupStorage storage_c3.stored rec_c3.logger_details.name,
          ev.thread_id = e.thread_id)) :=
  ⟨rfl, c3_backtrace_replay rec_c3 storage_c3 tid_w 9 rfl⟩

theorem deliverGo_error_cases (r : LogRecord) (tid : List Char) (ts : Nat) :
    ∀ (hs : List Handler) (idx : Nat) (e : RenderError),
      (deliverGo r tid ts hs idx).2 = some e →
      ∃ j hj, hs.get? j = some hj ∧
        renderFor r ts tid hj = Except.error e ∧
        (∀ i hi, i < j → hs.get? i = some hi →
          ∃ buf, renderFor r ts tid hi = Except.ok buf ∧
            ({ handler_index := idx + i, thread_id := tid, buffer := buf, timestamp := ts }
              : Event) ∈ (deliverGo r tid ts hs idx).1) ∧
        (∀ ev ∈ (deliverGo r tid ts hs idx).1, ev.handler_index < idx + j) := by
  intro hs
  induction hs with
  | nil => intro idx e herr; simp [deliverGo] at herr
  | cons h hs ih =>
      intro idx e herr
      cases hr : renderFor r ts tid h with
      | error e2 =>
          have he2 : e2 = e := by cases e2; cases e; rfl
          subst he2
          have htr : (deliverGo r tid ts (h :: hs) idx).1 = [] := by
            simp [deliverGo, hr]
          refine ⟨0, h, rfl, hr, ?_, ?_⟩
          · intro i hi hlt; exact absurd hlt (Nat.not_lt_zero i)
          · intro ev hev; rw [htr] at hev; exact absurd hev (List.not_mem_nil ev)
      | ok buf =>
          have htr : (deliverGo r tid ts (h :: hs) idx).1
              = { handler_index := idx, thread_id := tid, buffer := buf, timestamp := ts }
                :: (deliverGo r tid ts hs (idx + 1)).1 := by
            simp [deliverGo, hr]
          have herr2 : (deliverGo r tid ts hs (idx + 1)).2 = some e := by
            simp only [deliverGo, hr] at herr
            exact herr
          obtain ⟨j, hj, hget, he, hprev, hbound⟩ := ih (idx + 1) e herr2
          refine ⟨j + 1, hj, by simpa using hget, he, ?_, ?_⟩
          · intro i hi hlt hg
            cases i with
            | zero =>
                have hh : h = hi := by
                  simp only [List.get?_cons_zero] at hg
                  injection hg
                subst hh
                refine ⟨buf, hr, ?_⟩
                rw [htr]
                have : idx + 0 = idx := Nat.add_zero idx
                rw [this]
                exact List.mem_cons_self _ _
            | succ i' =>
                simp only [List.get?_cons_succ] at hg
                obtain ⟨buf', hb, hm⟩ := hprev i' hi (Nat.lt_of_succ_lt_succ hlt) hg
                refine ⟨buf', hb, ?_⟩
                rw [htr]
                have harith : idx + (i' + 1) = idx + 1 + i' := by omega
                rw [harith]
                exact List.mem_cons_of_mem _ hm
          · intro ev hev
            rw [htr] at hev
            rcases List.mem_cons.mp hev with rfl | hev2
            · simp
            · have := hbound ev hev2
              omega

theorem deliverGo_ok_map (r : LogRecord) (tid : List Char) (ts : Nat) :
    ∀ (hs : List Handler) (idx : Nat),
      (deliverGo r tid ts hs idx).2 = none →
      List.map Event.handler_index (deliverGo r tid ts hs idx).1 = List.range' idx hs.length ∧
      (∀ i hi, hs.get? i = some hi →
        ∃ buf, renderFor r ts tid hi = Except.ok buf ∧
          (deliverGo r tid ts hs idx).1.get? i
            = some { handler_index := idx + i, thread_id := tid, buffer := buf,
                     timestamp := ts }) := by
  intro hs
  induction hs with
  | nil =>
      intro idx hok
      constructor
      · simp [deliverGo, List.range']
      · intro i hi hg; simp at hg
  | cons h hs ih =>
      intro idx hok
      cases hr : renderFor r ts tid h with
      | error e => exfalso; simp [deliverGo, hr] at hok
      | ok buf =>
          have htr : (deliverGo r tid ts (h :: hs) idx).1
              = { handler_index := idx, thread_id := tid, buffer := buf, timestamp := ts }
                :: (deliverGo r tid ts hs (idx + 1)).1 := by
            simp [deliverGo, hr]
          have hok2 : (deliverGo r tid ts hs (idx + 1)).2 = none := by
            simp only [deliverGo, hr] at hok
            exact hok
          obtain ⟨hmap, hget⟩ := ih (idx + 1) hok2
          constructor
          · rw [htr]
            simp only [List.map_cons, List.length_cons, List.range'_succ]
            rw [hmap]
          · intro i hi hg
            cases i with
            | zero =>
                have hh : h = hi := by
                  simp only [List.get?_cons_zero] at hg
                  injection hg
                subst hh
                refine ⟨buf, hr, ?_⟩
                rw [htr]
                simp
            | succ i' =>
                simp only [List.get?_cons_succ] at hg
                obtain ⟨buf', hb, hgg⟩ := hget i' hi hg
                refine ⟨buf', hb, ?_⟩
                rw [htr]
                simp only [List.get?_cons_succ]
                have harith : idx + (i' + 1) = idx + 1 + i' := by omega
                rw [harith]
                exact hgg

/-- Claim C7 (amended scope: every render succeeded): during one dispatch,
the logger's attached handlers are visited in declared attachment order
and each handler's write is performed exactly once for the record -- the
event list's handler indices are exactly 0, 1, ..., n-1 in order, and the
i-th event is the write of the i-th handler's successfully rendered
buffer. -/
theorem c7_handler_order (r : LogRecord) (thread_id : List Char) (timestamp : Nat)
    (hok : (deliverToHandlers r thread_id timestamp).2 = none) :
    List.map Event.handler_index (deliverToHandlers r thread_id timestamp).1
      = List.range r.logger_details.handlers.length ∧
    (∀ i hi, r.logger_details.handlers.get? i = some hi →
      ∃ buf, renderFor r timestamp thread_id hi = Except.ok buf ∧
        (deliverToHandlers r thread_id timestamp).1.get? i
          = some { handler_index := i, thread_id := thread_id, buffer := buf,
                   timestamp := timestamp }) := by
  obtain ⟨hmap, hget⟩ := deliverGo_ok_map r thread_id timestamp r.logger_details.handlers 0 hok
  constructor
  · rw [List.range_eq_range']
    exact hmap
  · intro i hi hg
    obtain ⟨buf, hb, hgg⟩ := hget i hi hg
    refine ⟨buf, hb, ?_⟩
    simpa using hgg

/-- Witness for C7 at a three-handler logger: write order 0, 1, 2. -/
theorem c7_handler_order_witness :
    (deliverToHandlers rec_c7 tid_w 5).2 = none ∧
    (List.map Event.handler_index (deliverToHandlers rec_c7 tid_w 5).1
        = List.range rec_c7.logger_details.handlers.length ∧
     (∀ i hi, rec_c7.logger_details.handlers.get? i = some hi →
       ∃ buf, renderFor rec_c7 5 tid_w hi = Except.ok buf ∧
         (deliverToHandlers rec_c7 tid_w 5).1.get? i
           = some { handler_index := i, thread_id := tid_w, buffer := buf,
                    timestamp := 5 })) :=
  ⟨rfl, c7_handler_order rec_c7 tid_w 5 rfl⟩

/-- Counterexample to C6 as stated: a record with two attached handlers
whose message template does not match its captured arguments; the render
failure for the first handler yields an empty event list -- the second
handler never receives a delivery attempt. -/
theorem c6_counterexample :
    rec_c6.logger_details.handlers.length = 2 ∧
    (deliverToHandlers rec_c6 tid_w 0).2 = some RenderError.formatError ∧
    ¬ ∃ ev ∈ (deliverToHandlers rec_c6 tid_w 0).1, ev.handler_index = 1 := by
  refine ⟨rfl, rfl, ?_⟩
  rintro ⟨ev, hev, -⟩
  rw [show (deliverToHandlers rec_c6 tid_w 0).1 = [] from rfl] at hev
  exact absurd hev (List.not_mem_nil ev)

/-- Claim C6 (amended): a render failure for one handler aborts the
dispatch at that handler -- every handler before the failing index was
rendered successfully and written, and no handler at or after the failing
index receives any write. -/
theorem c6_render_failure_aborts (r : LogRecord) (thread_id : List Char) (timestamp : Nat)
    (e : RenderError) (hf : (deliverToHandlers r thread_id timestamp).2 = some e) :
    ∃ k hk, r.logger_details.handlers.get? k = some hk ∧
      renderFor r timestamp thread_id hk = Except.error e ∧
      (∀ i hi, i < k → r.logger_details.handlers.get? i = some hi →
        ∃ buf, renderFor r timestamp thread_id hi = Except.ok buf ∧
          ({ handler_index := i, thread_id := thread_id, buffer := buf, timestamp := timestamp }
            : Event) ∈ (deliverToHandlers r thread_id timestamp).1) ∧
      (∀ ev ∈ (deliverToHandlers r thread_id timestamp).1, ev.handler_index < k) := by
  obtain ⟨j, hj, hget, he, hprev, hbound⟩ :=
    deliverGo_error_cases r thread_id timestamp r.logger_details.handlers 0 e hf
  refine ⟨j, hj, hget, he, ?_, ?_⟩
  · intro i hi hlt hg
    obtain ⟨buf, hb, hm⟩ := hprev i hi hlt hg
    refine ⟨buf, hb, ?_⟩
    simpa using hm
  · intro ev hev
    simpa using hbound ev hev

/-- Witness for the amended C6: handlers [sound, broken, sound]; the
failure happens at index 1, handler 0 was already written, handler 2 gets
nothing. -/
theorem c6_render_failure_aborts_witness :
    (deliverToHandlers rec_c6w tid_w 0).2 = some RenderError.formatError ∧
    (∃ k hk, rec_c6w.logger_details.handlers.get? k = some hk ∧
      renderFor rec_c6w 0 tid_w hk = Except.error RenderError.formatError ∧
      (∀ i hi, i < k → rec_c6w.logger_details.handlers.get? i = some hi →
        ∃ buf, renderFor rec_c6w 0 tid_w hi = Except.ok buf ∧
          ({ handler_index := i, thread_id := tid_w, buffer := buf, timestamp := 0 }
            : Event) ∈ (deliverToHandlers rec_c6w tid_w 0).1) ∧
      (∀ ev ∈ (deliverToHandlers rec_c6w tid_w 0).1, ev.handler_index < k)) :=
  ⟨rfl, c6_render_failure_aborts rec_c6w tid_w 0 RenderError.formatError rfl⟩

theorem attrName_cons (a : Attr) :
    ∃ x xs, attrName a = x :: xs ∧ x ≠ 'm' ∧ x ≠ '%' ∧ x ≠ ')' := by
  cases a <;> exact ⟨_, _, rfl, by decide, by decide, by decide⟩

theorem attrName_no_pct (a : Attr) : '%' ∉ attrName a := by
  cases a <;> decide

theorem attrName_no_rparen (a : Attr) : ')' ∉ attrName a := by
  cases a <;> decide

theorem select_attrName (a : Attr) : _select_argument_callback (attrName a) = some a := by
  cases a <;> rfl

theorem matchMsgTail_open_mismatch (x : Char) (hx : x ≠ 'm') (rest : List Char) :
    matchMsgTail msgTail ('(' :: x :: rest) = (false, 2) := by
  simp [msgTail, matchMsgTail, hx]

theorem scanSkip_skip_append (s : List Char) :
    ∀ t p2 c1 c3, scanSkip (s ++ t) s.length p2 c1 c3 = scanSkip t 0 p2 c1 c3 := by
  induction s with
  | nil => intro t p2 c1 c3; rfl
  | cons c s ih => intro t p2 c1 c3; exact ih t p2 c1 c3

theorem scanSkip_lit (s : List Char) (hs : '%' ∉ s) :
    ∀ t p2 c1 c3, scanSkip (s ++ t) 0 p2 c1 c3 = scanSkip t 0 p2 c1 c3 := by
  induction s with
  | nil => intro t p2 c1 c3; rfl
  | cons c s ih =>
      intro t p2 c1 c3
      have hc : c ≠ '%' := fun h => hs (h ▸ List.mem_cons_self c s)
      have hs' : '%' ∉ s := fun h => hs (List.mem_cons_of_mem c h)
      by_cases he : s ++ t = []
      · rcases List.append_eq_nil.mp he with ⟨rfl, rfl⟩
        rfl
      · have hstep : scanSkip ((c :: s) ++ t) 0 p2 c1 c3 = scanSkip (s ++ t) 0 p2 c1 c3 := by
          show scanSkip (c :: (s ++ t)) 0 p2 c1 c3 = _
          simp [scanSkip, he, hc]
        rw [hstep]
        exact ih hs' t p2 c1 c3

theorem scanSkip_tok_pre (a : Attr) (t : List Char) (c1 c3 : Nat) :
    scanSkip (tokenChars a ++ t) 0 false c1 c3 = scanSkip t 0 false (c1 + 1) c3 := by
  obtain ⟨x, xs, hx, hxm, hxp, hxr⟩ := attrName_cons a
  have hxs : '%' ∉ xs := fun h => attrName_no_pct a (by rw [hx]; exact List.mem_cons_of_mem x h)
  have hnp : '%' ∉ xs ++ [')'] := by
    intro h
    rcases List.mem_append.mp h with h1 | h1
    · exact hxs h1
    · simp at h1
  have hshape : tokenChars a ++ t = '%' :: '(' :: x :: (xs ++ (')' :: t)) := by
    simp [tokenChars, hx]
  rw [hshape]
  have hm := matchMsgTail_open_mismatch x hxm (xs ++ (')' :: t))
  have hstep : scanSkip ('%' :: '(' :: x :: (xs ++ (')' :: t))) 0 false c1 c3
      = scanSkip (xs ++ (')' :: t)) 0 false (c1 + 1) c3 := by
    conv_lhs => rw [scanSkip]
    rw [hm]
    rfl
  rw [hstep]
  have := scanSkip_lit (xs ++ [')']) hnp t false (c1 + 1) c3
  simpa [List.append_assoc] using this

theorem scanSkip_tok_post (a : Attr) (t : List Char) (c1 c3 : Nat) :
    scanSkip (tokenChars a ++ t) 0 true c1 c3 = scanSkip t 0 true c1 (c3 + 1) := by
  have hnp : '%' ∉ '(' :: (attrName a ++ [')']) := by
    intro h
    rcases List.mem_cons.mp h with h1 | h1
    · exact absurd h1.symm (by decide)
    · rcases List.mem_append.mp h1 with h2 | h2
      · exact attrName_no_pct a h2
      · simp at h2
  have hstep : scanSkip (tokenChars a ++ t) 0 true c1 c3
      = scanSkip (('(' :: (attrName a ++ [')'])) ++ t) 0 true c1 (c3 + 1) := rfl
  rw [hstep]
  exact scanSkip_lit ('(' :: (attrName a ++ [')'])) hnp t true c1 (c3 + 1)

theorem scanSkip_msg_pre (t : List Char) (c1 c3 : Nat) :
    scanSkip (msgChars ++ t) 0 false c1 c3 = scanSkip t 0 true c1 c3 := rfl

theorem scanSkip_items_pre (items : List PatItem) (hok : ∀ i ∈ items, itemOk i) :
    ∀ t c1 c3, scanSkip (renderItems items ++ t) 0 false c1 c3
      = scanSkip t 0 false (c1 + (toks items).length) c3 := by
  induction items with
  | nil => intro t c1 c3; simp [renderItems, toks]
  | cons i rest ih =>
      have hi := hok i (List.mem_cons_self i rest)
      have hrest : ∀ j ∈ rest, itemOk j := fun j hj => hok j (List.mem_cons_of_mem i hj)
      intro t c1 c3
      cases i with
      | lit s =>
          have hshape : renderItems (PatItem.lit s :: rest) ++ t
              = s ++ (renderItems rest ++ t) := by
            simp [renderItems, PatItem.render, List.append_assoc]
          rw [hshape, scanSkip_lit s hi, ih hrest]
          simp [toks]
      | tok a =>
          have hshape : renderItems (PatItem.tok a :: rest) ++ t
              = tokenChars a ++ (renderItems rest ++ t) := by
            simp [renderItems, PatItem.render, List.append_assoc]
          rw [hshape, scanSkip_tok_pre a, ih hrest]
          have harith : c1 + 1 + (toks rest).length = c1 + (toks (PatItem.tok a :: rest)).length := by
            simp only [toks, List.length_cons]
            omega
          rw [harith]

theorem scanSkip_items_post (items : List PatItem) (hok : ∀ i ∈ items, itemOk i) :
    ∀ t c1 c3, scanSkip (renderItems items ++ t) 0 true c1 c3
      = scanSkip t 0 true c1 (c3 + (toks items).length) := by
  induction items with
  | nil => intro t c1 c3; simp [renderItems, toks]
  | cons i rest ih =>
      have hi := hok i (List.mem_cons_self i rest)
      have hrest : ∀ j ∈ rest, itemOk j := fun j hj => hok j (List.mem_cons_of_mem i hj)
      intro t c1 c3
      cases i with
      | lit s =>
          have hshape : renderItems (PatItem.lit s :: rest) ++ t
              = s ++ (renderItems rest ++ t) := by
            simp [renderItems, PatItem.render, List.append_assoc]
          rw [hshape, scanSkip_lit s hi, ih hrest]
          simp [toks]
      | tok a =>
          have hshape : renderItems (PatItem.tok a :: rest) ++ t
              = tokenChars a ++ (renderItems rest ++ t) := by
            simp [renderItems, PatItem.render, List.append_assoc]
          rw [hshape, scanSkip_tok_post a, ih hrest]
          have harith : c3 + 1 + (toks rest).length = c3 + (toks (PatItem.tok a :: rest)).length := by
            simp only [toks, List.length_cons]
            omega
          rw [harith]

/-- Counterexample to C4 as stated: in `100% %(thread) %(message)` the
split point is index 15, the prefix holds exactly one recognized token
(`%(thread)`), yet the prefix resolver count computed by
`_parse_format_pattern` is 2 -- the stray `%` of `100%` contributes. -/
theorem c4_counterexample :
    strFind pat_c4 msgChars = some 15 ∧
    _generate_vector_of_callbacks (List.take 15 pat_c4) = Except.ok [Attr.thread] ∧
    (_parse_format_pattern pat_c4).1 = 2 ∧
    ¬ (_parse_format_pattern pat_c4).1 = List.length [Attr.thread] := by
  decide

/-- Claim C4 (amended): the segment counters count `%` characters examined
by the scanner, not recognized tokens; for patterns in which every `%`
starts a recognized token or the single message token -- patterns built
from percent-free literal runs and recognized tokens around one
`%(message)` -- the prefix counter equals the number of recognized tokens
before the split point and the suffix counter equals the number after
it. -/
theorem c4_amended (pre post : List PatItem)
    (hpre : ∀ i ∈ pre, itemOk i) (hpost : ∀ i ∈ post, itemOk i) :
    _parse_format_pattern (renderItems pre ++ msgChars ++ renderItems post)
      = ((toks pre).length, (toks post).length) := by
  unfold _parse_format_pattern
  calc scanSkip (renderItems pre ++ msgChars ++ renderItems post) 0 false 0 0
      = scanSkip (renderItems pre ++ (msgChars ++ renderItems post)) 0 false 0 0 := by
        rw [List.append_assoc]
    _ = scanSkip (msgChars ++ renderItems post) 0 false (0 + (toks pre).length) 0 :=
        scanSkip_items_pre pre hpre _ 0 0
    _ = scanSkip (renderItems post) 0 true (0 + (toks pre).length) 0 :=
        scanSkip_msg_pre _ _ _
    _ = scanSkip [] 0 true (0 + (toks pre).length) (0 + (toks post).length) := by
        have := scanSkip_items_post post hpost [] (0 + (toks pre).length) 0
        simpa using this
    _ = ((toks pre).length, (toks post).length) := by simp [scanSkip]

/-- Witness for the amended C4 at `a %(thread) %(message)%(lineno)`. -/
theorem c4_amended_witness :
    (∀ i ∈ pre_c4, itemOk i) ∧ (∀ i ∈ post_c4, itemOk i) ∧
    _parse_format_pattern (renderItems pre_c4 ++ msgChars ++ renderItems post_c4)
      = ((toks pre_c4).length, (toks post_c4).length) :=
  ⟨by decide, by decide, c4_amended pre_c4 post_c4 (by decide) (by decide)⟩

theorem rbrace_ne_lbrace : rbrace ≠ lbrace := by decide

theorem gvocScan_lit (s : List Char) (hs : '%' ∉ s) :
    ∀ t, gvocScan (s ++ t) none = gvocScan t none := by
  induction s with
  | nil => intro t; rfl
  | cons c s ih =>
      intro t
      have hc : c ≠ '%' := fun h => hs (h ▸ List.mem_cons_self c s)
      have hs' : '%' ∉ s := fun h => hs (List.mem_cons_of_mem c h)
      have hstep : gvocScan ((c :: s) ++ t) none = gvocScan (s ++ t) none := by
        show gvocScan (c :: (s ++ t)) none = _
        rcases hst : (s ++ t) with _ | ⟨d, ds⟩ <;> simp [gvocScan, hc]
      rw [hstep]
      exact ih hs' t

theorem gvocScan_collect_some (name : List Char) (hnr : ')' ∉ name) :
    ∀ acc t a, _select_argument_callback (acc.reverse ++ name) = some a →
      gvocScan (name ++ ')' :: t) (some acc)
        = Except.map (fun l => a :: l) (gvocScan t none) := by
  induction name with
  | nil =>
      intro acc t a ha
      simp only [List.append_nil] at ha
      show gvocScan (')' :: t) (some acc) = _
      simp [gvocScan, ha]
  | cons c name ih =>
      intro acc t a ha
      have hc : c ≠ ')' := fun h => hnr (h ▸ List.mem_cons_self c name)
      have h' : ')' ∉ name := fun h => hnr (List.mem_cons_of_mem c h)
      show gvocScan (c :: (name ++ ')' :: t)) (some acc) = _
      have hstep : gvocScan (c :: (name ++ ')' :: t)) (some acc)
          = gvocScan (name ++ ')' :: t) (some (c :: acc)) := by
        simp [gvocScan, hc]
      rw [hstep]
      refine ih h' (c :: acc) t a ?_
      have heq : (c :: acc).reverse ++ name = acc.reverse ++ (c :: name) := by
        simp
      rw [heq]
      exact ha

theorem gvocScan_token (a : Attr) (t : List Char) :
    gvocScan (tokenChars a ++ t) none = Except.map (fun l => a :: l) (gvocScan t none) := by
  have hshape : tokenChars a ++ t = '%' :: '(' :: (attrName a ++ ')' :: t) := by
    simp [tokenChars]
  rw [hshape]
  have hstep : gvocScan ('%' :: '(' :: (attrName a ++ ')' :: t)) none
      = gvocScan (attrName a ++ ')' :: t) (some []) := by
    simp [gvocScan]
  rw [hstep]
  exact gvocScan_collect_some (attrName a) (attrName_no_rparen a) [] t a
    (by simpa using select_attrName a)

theorem gvocScan_items (items : List PatItem) (hok : ∀ i ∈ items, itemOk i) :
    ∀ t, gvocScan (renderItems items ++ t) none
      = Except.map (fun l => toks items ++ l) (gvocScan t none) := by
  induction items with
  | nil =>
      intro t
      show gvocScan t none = _
      cases h : gvocScan t none <;> simp [toks, Except.map]
  | cons i rest ih =>
      have hi := hok i (List.mem_cons_self i rest)
      have hrest : ∀ j ∈ rest, itemOk j := fun j hj => hok j (List.mem_cons_of_mem i hj)
      intro t
      cases i with
      | lit s =>
          have hshape : renderItems (PatItem.lit s :: rest) ++ t
              = s ++ (renderItems rest ++ t) := by
            simp [renderItems, PatItem.render, List.append_assoc]
          rw [hshape, gvocScan_lit s hi, ih hrest]
          simp [toks]
      | tok a =>
          have hshape : renderItems (PatItem.tok a :: rest) ++ t
              = tokenChars a ++ (renderItems rest ++ t) := by
            simp [renderItems, PatItem.render, List.append_assoc]
          rw [hshape, gvocScan_token a, ih hrest]
          cases h : gvocScan t none <;> simp [toks, Except.map]

theorem gvoc_items_closed (items : List PatItem) (hok : ∀ i ∈ items, itemOk i) :
    _generate_vector_of_callbacks (renderItems items) = Except.ok (toks items) := by
  unfold _generate_vector_of_callbacks
  have h := gvocScan_items items hok []
  rw [List.append_nil] at h
  rw [h]
  simp [gvocScan, Except.map]

theorem gffsScan_lit (s : List Char) (hs : '%' ∉ s) :
    ∀ t, gffsScan (s ++ t) none = escapeLit s ++ gffsScan t none := by
  induction s with
  | nil => intro t; rfl
  | cons c s ih =>
      intro t
      have hc : c ≠ '%' := fun h => hs (h ▸ List.mem_cons_self c s)
      have hs' : '%' ∉ s := fun h => hs (List.mem_cons_of_mem c h)
      have hstep : gffsScan ((c :: s) ++ t) none =
          (if c = lbrace then lbrace :: lbrace :: gffsScan (s ++ t) none
           else if c = rbrace then rbrace :: rbrace :: gffsScan (s ++ t) none
           else c :: gffsScan (s ++ t) none) := by
        show gffsScan (c :: (s ++ t)) none = _
        rcases hst : (s ++ t) with _ | ⟨d, ds⟩ <;> simp [gffsScan, hc]
      rw [hstep, ih hs' t]
      by_cases h1 : c = lbrace
      · simp [escapeLit, h1]
      · by_cases h2 : c = rbrace
        · simp [escapeLit, h1, h2, rbrace_ne_lbrace]
        · simp [escapeLit, h1, h2]

theorem gffsScan_collect_some (name : List Char) (hnr : ')' ∉ name) :
    ∀ acc t, (_select_argument_callback (acc.reverse ++ name)).isSome = true →
      gffsScan (name ++ ')' :: t) (some acc) = lbrace :: rbrace :: gffsScan t none := by
  induction name with
  | nil =>
      intro acc t ha
      simp only [List.append_nil] at ha
      show gffsScan (')' :: t) (some acc) = _
      simp [gffsScan, ha]
  | cons c name ih =>
      intro acc t ha
      have hc : c ≠ ')' := fun h => hnr (h ▸ List.mem_cons_self c name)
      have h' : ')' ∉ name := fun h => hnr (List.mem_cons_of_mem c h)
      show gffsScan (c :: (name ++ ')' :: t)) (some acc) = _
      have hstep : gffsScan (c :: (name ++ ')' :: t)) (some acc)
          = gffsScan (name ++ ')' :: t) (some (c :: acc)) := by
        simp [gffsScan, hc]
      rw [hstep]
      refine ih h' (c :: acc) t ?_
      have heq : (c :: acc).reverse ++ name = acc.reverse ++ (c :: name) := by
        simp
      rw [heq]
      exact ha

theorem gffsScan_token (a : Attr) (t : List Char) :
    gffsScan (tokenChars a ++ t) none = lbrace :: rbrace :: gffsScan t none := by
  have hshape : tokenChars a ++ t = '%' :: '(' :: (attrName a ++ ')' :: t) := by
    simp [tokenChars]
  rw [hshape]
  have hstep : gffsScan ('%' :: '(' :: (attrName a ++ ')' :: t)) none
      = gffsScan (attrName a ++ ')' :: t) (some []) := by
    simp [gffsScan]
  rw [hstep]
  exact gffsScan_collect_some (attrName a) (attrName_no_rparen a) [] t
    (by simp [select_attrName a])

theorem gffsScan_items (items : List PatItem) (hok : ∀ i ∈ items, itemOk i) :
    ∀ t, gffsScan (renderItems items ++ t) none = fmtRender items ++ gffsScan t none := by
  induction items with
  | nil => intro t; rfl
  | cons i rest ih =>
      have hi := hok i (List.mem_cons_self i rest)
      have hrest : ∀ j ∈ rest, itemOk j := fun j hj => hok j (List.mem_cons_of_mem i hj)
      intro t
      cases i with
      | lit s =>
          have hshape : renderItems (PatItem.lit s :: rest) ++ t
              = s ++ (renderItems rest ++ t) := by
            simp [renderItems, PatItem.render, List.append_assoc]
          rw [hshape, gffsScan_lit s hi, ih hrest]
          simp [fmtRender, List.append_assoc]
      | tok a =>
          have hshape : renderItems (PatItem.tok a :: rest) ++ t
              = tokenChars a ++ (renderItems rest ++ t) := by
            simp [renderItems, PatItem.render, List.append_assoc]
          rw [hshape, gffsScan_token a, ih hrest]
          simp [fmtRender]

theorem fmtInterp_escape (s : List Char) :
    ∀ T args, fmtInterp (escapeLit s ++ T) args
      = Except.map (fun r => s ++ r) (fmtInterp T args) := by
  induction s with
  | nil => intro T args; cases h : fmtInterp T args <;> simp [escapeLit, h, Except.map]
  | cons c s ih =>
      intro T args
      by_cases h1 : c = lbrace
      · subst h1
        have hesc : escapeLit (lbrace :: s) ++ T = lbrace :: lbrace :: (escapeLit s ++ T) := by
          simp [escapeLit]
        rw [hesc]
        have hstep : fmtInterp (lbrace :: lbrace :: (escapeLit s ++ T)) args
            = Except.map (fun r => lbrace :: r) (fmtInterp (escapeLit s ++ T) args) := by
          simp [fmtInterp]
        rw [hstep, ih T args]
        cases h : fmtInterp T args <;> simp [Except.map]
      · by_cases h2 : c = rbrace
        · subst h2
          have hesc : escapeLit (rbrace :: s) ++ T = rbrace :: rbrace :: (escapeLit s ++ T) := by
            simp [escapeLit, h1]
          rw [hesc]
          have hstep : fmtInterp (rbrace :: rbrace :: (escapeLit s ++ T)) args
              = Except.map (fun r => rbrace :: r) (fmtInterp (escapeLit s ++ T) args) := by
            simp [fmtInterp, rbrace_ne_lbrace]
          rw [hstep, ih T args]
          cases h : fmtInterp T args <;> simp [Except.map]
        · have hesc : escapeLit (c :: s) ++ T = c :: (escapeLit s ++ T) := by
            simp [escapeLit, h1, h2]
          rw [hesc]
          have hstep : fmtInterp (c :: (escapeLit s ++ T)) args
              = Except.map (fun r => c :: r) (fmtInterp (escapeLit s ++ T) args) := by
            cases hX : (escapeLit s ++ T) with
            | nil => simp [fmtInterp, h1, h2]
            | cons d ds => simp [fmtInterp, h1, h2]
          rw [hstep, ih T args]
          cases h : fmtInterp T args <;> simp [Except.map]

theorem fmtInterp_placeholder (T : List Char) (v : List Char) (args : List (List Char)) :
    fmtInterp (lbrace :: rbrace :: T) (v :: args)
      = Except.map (fun r => v ++ r) (fmtInterp T args) := by
  simp [fmtInterp, rbrace_ne_lbrace]

theorem fmtInterp_items (items : List PatItem) (f : Attr → List Char) :
    ∀ T args, fmtInterp (fmtRender items ++ T) ((toks items).map f ++ args)
      = Except.map (fun r => resolveItems f items ++ r) (fmtInterp T args) := by
  induction items with
  | nil =>
      intro T args
      cases h : fmtInterp T args <;> simp [fmtRender, toks, resolveItems, Except.map, h]
  | cons i rest ih =>
      intro T args
      cases i with
      | lit s =>
          have hshape : fmtRender (PatItem.lit s :: rest) ++ T
              = escapeLit s ++ (fmtRender rest ++ T) := by
            simp [fmtRender, List.append_assoc]
          rw [hshape]
          have htoks : (toks (PatItem.lit s :: rest)).map f ++ args
              = (toks rest).map f ++ args := by simp [toks]
          rw [htoks, fmtInterp_escape, ih]
          cases h : fmtInterp T args <;> simp [resolveItems, Except.map, List.append_assoc]
      | tok a =>
          have hshape : fmtRender (PatItem.tok a :: rest) ++ T
              = lbrace :: rbrace :: (fmtRender rest ++ T) := by
            simp [fmtRender]
          rw [hshape]
          have htoks : (toks (PatItem.tok a :: rest)).map f ++ args
              = f a :: ((toks rest).map f ++ args) := by simp [toks]
          rw [htoks, fmtInterp_placeholder, ih]
          cases h : fmtInterp T args <;> simp [resolveItems, Except.map, List.append_assoc]

/-- Counterexample to C5 as stated: the pattern `hello %(message)` is
accepted at compilation, its prefix segment holds the literal text
`hello ` and zero tokens, yet the compiled formatter has no prefix helper
at all and the rendered line `ok\n` contains no character of the literal
text. -/
theorem c5_counterexample :
    _set_pattern pat_c5 = Except.ok { part1 := none, part3 := none } ∧
    PatternFormatter.format { part1 := none, part3 := none } [] 0 tid_w lname_w infoPlain []
      = Except.ok ['o', 'k', '\n'] ∧
    'h' ∈ List.take 6 pat_c5 ∧ 'h' ∉ (['o', 'k', '\n'] : List Char) := by
  decide

/-- Claim C5 (amended): for a segment holding at least one recognized
token, compilation preserves its literal text: the helper is built with
exactly the segment's tokens as callbacks, and rendering it produces the
segment text with each token replaced by its resolved attribute value --
every literal character kept in order around the resolved values.  A
segment with zero tokens is instead dropped entirely (no helper), even
when it holds literal text. -/
theorem c5_amended (items : List PatItem) (hok : ∀ i ∈ items, itemOk i)
    (hne : toks items ≠ []) (timestamp : Nat) (thread_id logger_name : List Char)
    (logline_info : StaticLogRecordInfo) :
    _make_formatter_helper (toks items).length (renderItems items)
      = Except.ok (some { callbacks := toks items
                          fmt_pattern := _generate_fmt_format_string (renderItems items) }) ∧
    FormatterHelper.format
        { callbacks := toks items
          fmt_pattern := _generate_fmt_format_string (renderItems items) }
        timestamp thread_id logger_name logline_info
      = Except.ok (resolveItems
          (fun a => evalAttr a timestamp thread_id logger_name logline_info) items) := by
  constructor
  · unfold _make_formatter_helper
    rw [gvoc_items_closed items hok]
    simp [hne, List.take_length]
  · unfold FormatterHelper.format
    have hg : _generate_fmt_format_string (renderItems items) = fmtRender items := by
      unfold _generate_fmt_format_string
      have h2 := gffsScan_items items hok []
      rw [List.append_nil] at h2
      rw [h2]
      simp [gffsScan]
    rw [hg]
    have hi := fmtInterp_items items
      (fun a => evalAttr a timestamp thread_id logger_name logline_info) [] []
    simp only [List.append_nil] at hi
    simpa [fmtInterp, Except.map] using hi

/-- Witness for the amended C5 at the segment `a{b%(thread)c` (a literal
brace, a token, more literal text): the render is `a{bTc`. -/
theorem c5_amended_witness :
    (∀ i ∈ items_c5, itemOk i) ∧ toks items_c5 ≠ [] ∧
    (_make_formatter_helper (toks items_c5).length (renderItems items_c5)
        = Except.ok (some { callbacks := toks items_c5
                            fmt_pattern := _generate_fmt_format_string (renderItems items_c5) }) ∧
     FormatterHelper.format
         { callbacks := toks items_c5
           fmt_pattern := _generate_fmt_format_string (renderItems items_c5) }
         5 tid_w lname_w info_w
       = Except.ok (resolveItems (fun a => evalAttr a 5 tid_w lname_w info_w) items_c5)) :=
  ⟨by decide, by decide, c5_amended items_c5 (by decide) (by decide) 5 tid_w lname_w info_w⟩
